import Mathlib

/-!
Shallow embedding of the access-resolution middleware of the FHIR HMIS
backend (src/src/middleware/auth.ts), the token claim construction of the
auth routes, the membership uniqueness constraint of the Prisma schema, and
the organization scoping of the patient search route.
-/

namespace HMIS

/-! ## JavaScript string and truthiness primitives -/

/-- Character-list test that the first list is an initial segment of the
second, used to embed url.startsWith. -/
def isPre : List Char → List Char → Bool
  | [], _ => true
  | _ :: _, [] => false
  | a :: as, b :: bs => a == b && isPre as bs

/-- Character-list test that the first list occurs as a contiguous block of
the second, used to embed url.includes. -/
def hasSubList (pat : List Char) : List Char → Bool
  | [] => isPre pat []
  | c :: cs => isPre pat (c :: cs) || hasSubList pat cs

/-- Embedding of JavaScript s.includes(pat). -/
def jsIncludes (s pat : String) : Bool :=
  hasSubList pat.toList s.toList

/-- Embedding of JavaScript s.startsWith(pat). -/
def jsStartsWith (s pat : String) : Bool :=
  isPre pat.toList s.toList

/-- Embedding of JavaScript replace of the first occurrence of the text
Bearer followed by a space with the empty string, as in
authorization.replace in the middleware. -/
def replaceFirstBearer : List Char → List Char
  | [] => []
  | c :: cs =>
    if isPre "Bearer ".toList (c :: cs) then (c :: cs).drop 7
    else c :: replaceFirstBearer cs

/-- JavaScript truthiness of a possibly absent string: undefined, null and
the empty string are falsy, every other string is truthy. -/
def truthy : Option String → Bool
  | none => false
  | some s => s != ""

/-- Embedding of the JavaScript short-circuit a or-else b on possibly
absent strings. -/
def jsOr (a b : Option String) : Option String :=
  if truthy a then a else b

/-! ## Data model (Prisma schema, trimmed to the fields the resolver reads) -/

/-- Organization row: id and the active flag read by the resolver. -/
structure Organization where
  id : String
  name : String
  active : Bool
deriving DecidableEq

/-- UserOrganizationAccess row; the Prisma schema declares the pair
(userId, organizationId) unique. -/
structure OrgAccess where
  userId : String
  organizationId : String
  role : String
  status : String
deriving DecidableEq

/-- User row, trimmed to the fields the middleware reads. -/
structure UserRec where
  id : String
  email : String
  role : String
  active : Bool
  primaryOrganizationId : Option String
deriving DecidableEq

/-- patient_organizations link row used by the patient routes. -/
structure PatLink where
  organizationId : String
  status : String
deriving DecidableEq

/-- Patient row with its organization links. -/
structure Patient where
  id : String
  orgLinks : List PatLink
deriving DecidableEq

/-- The relational store visible to the middleware and the patient search. -/
structure DB where
  users : List UserRec
  organizations : List Organization
  access : List OrgAccess
  patients : List Patient
deriving DecidableEq

/-- The request-scoped user context the middleware attaches to the request. -/
structure UserCtx where
  id : String
  email : String
  role : String
  organizationIds : List String
  primaryOrganizationId : Option String
  currentOrganizationId : Option String
  organizationAccess : List OrgAccess
deriving DecidableEq

/-- FHIR operation-outcome style error reply: HTTP status, code, text. -/
structure AuthErr where
  status : Nat
  code : String
  diagnostics : String
deriving DecidableEq

/-- The claims object passed to jwt.sign by the login and refresh routes. -/
structure TokenClaims where
  userId : String
  email : String
  role : String
deriving DecidableEq

/-- Failure-injection flags for the three kinds of store errors that can
occur inside the self-heal block: the organization enumeration throwing,
individual membership inserts throwing (listed by organization id), and
the primary-organization update throwing. -/
structure HealEnv where
  enumFails : Bool
  insertFails : List String
  updateFails : Bool
deriving DecidableEq

/-- Environment in which no store operation fails. -/
def noFailEnv : HealEnv := ⟨false, [], false⟩

/-- Incoming request data read by the middleware. -/
structure ReqInfo where
  url : String
  authorization : Option String
  orgHeader : Option String
deriving DecidableEq

/-- Outcome of the preHandler hook: skipped without auth, rejected with an
operation outcome, or authenticated with a user context and the store
state after any self-heal writes. -/
inductive MwResult where
  | skipped
  | rejected (err : AuthErr)
  | authed (ctx : UserCtx) (db : DB)
deriving DecidableEq

/-! ## Access resolver (authMiddleware after token verification) -/

/-- The active-status membership rows of one user, as loaded by the
findUnique include with the where clause status eq active. -/
def activeAccessRows (db : DB) (uid : String) : List OrgAccess :=
  db.access.filter (fun a => a.userId == uid && a.status == "active")

/-- The organizations enumerated by the self-heal findMany where active. -/
def activeOrgs (db : DB) : List Organization :=
  db.organizations.filter (fun o => o.active)

/-- Number of membership rows for one (userId, organizationId) pair. -/
def rowCount (tbl : List OrgAccess) (u o : String) : Nat :=
  (tbl.filter (fun a => a.userId == u && a.organizationId == o)).length

/-- One membership insert under the unique constraint of the schema: if a
row with the same (userId, organizationId) pair already exists the insert
raises a uniqueness violation, which the self-heal loop absorbs, leaving
the table unchanged; otherwise the row is appended. -/
def insertGuarded (tbl : List OrgAccess) (r : OrgAccess) : List OrgAccess :=
  if tbl.any (fun a => a.userId == r.userId && a.organizationId == r.organizationId)
  then tbl
  else tbl ++ [r]

/-- A sequence of guarded inserts; an interleaving of any number of
concurrent self-heal loops is one such sequence, each insert being atomic
at the store. -/
def runInserts (tbl : List OrgAccess) (attempts : List OrgAccess) : List OrgAccess :=
  attempts.foldl insertGuarded tbl

/-- The membership rows a self-heal pass attempts to insert: one admin
active row per enumerated organization, skipping those whose insert the
environment makes fail for a non-uniqueness reason. -/
def healAttempts (user : UserRec) (orgs : List Organization) (fails : List String) : List OrgAccess :=
  (orgs.filter (fun o => !(fails.contains o.id))).map
    (fun o => ⟨user.id, o.id, "admin", "active"⟩)

/-- The user.update call that sets primaryOrganizationId. -/
def setPrimary (db : DB) (uid oid : String) : DB :=
  { db with
    users := db.users.map (fun u =>
      if u.id == uid then { u with primaryOrganizationId := some oid } else u) }

/-- The super-admin self-heal block (lines 176 to 244 of the middleware):
enumerate active organizations, insert a membership per organization
absorbing failures, set the primary organization if unset, then recompute
the organization ids and the in-memory access list from the enumeration.
An enumeration or update failure is caught by the outer catch, so the
recomputation does not happen and the request continues with the original
(empty) ids and rows; inserts already performed persist in the store. -/
def selfHeal (env : HealEnv) (db : DB) (user : UserRec) (act : List OrgAccess) :
    List String × List OrgAccess × DB :=
  if env.enumFails then ([], act, db)
  else
    let orgs := activeOrgs db
    let db1 := { db with access := runInserts db.access (healAttempts user orgs env.insertFails) }
    if !(truthy user.primaryOrganizationId) && !orgs.isEmpty then
      if env.updateFails then ([], act, db1)
      else
        let db2 :=
          match orgs.head? with
          | some o => setPrimary db1 user.id o.id
          | none => db1
        (orgs.map (fun o => o.id), orgs.map (fun o => ⟨user.id, o.id, "admin", "active"⟩), db2)
    else
      (orgs.map (fun o => o.id), orgs.map (fun o => ⟨user.id, o.id, "admin", "active"⟩), db1)

/-- Organization ids, in-memory access rows, and store state after the
membership load and the conditional self-heal. -/
def resolvedState (env : HealEnv) (db : DB) (user : UserRec) :
    List String × List OrgAccess × DB :=
  let act := activeAccessRows db user.id
  let orgIds0 := act.map (fun a => a.organizationId)
  if orgIds0.isEmpty && user.role == "super_admin" then selfHeal env db user act
  else (orgIds0, act, db)

/-- Current-organization selection (line 246): the x-organization-id
header, else the user's primaryOrganizationId, else the first element of
organizationIds, under JavaScript truthiness. -/
def selectCurrent (header primary : Option String) (orgIds : List String) : Option String :=
  jsOr header (jsOr primary orgIds.head?)

/-- The consistency check condition (line 252): a truthy current
organization that the organization id list does not contain. -/
def mismatch (current : Option String) (orgIds : List String) : Bool :=
  match current with
  | none => false
  | some c => c != "" && !(orgIds.contains c)

/-- The 403 reply of the consistency check. -/
def forbiddenErr : AuthErr :=
  ⟨403, "forbidden", "No access to specified organization"⟩

/-- The user context object built at line 269: note primaryOrganizationId
is read from the in-memory user row, not from the store after self-heal. -/
def mkUserCtx (user : UserRec) (orgIds : List String) (access : List OrgAccess)
    (current : Option String) : UserCtx :=
  { id := user.id
    email := user.email
    role := user.role
    organizationIds := orgIds
    primaryOrganizationId :=
      if truthy user.primaryOrganizationId then user.primaryOrganizationId else none
    currentOrganizationId := current
    organizationAccess := access }

/-- Resolution for a found, active user: membership load, self-heal,
current-organization selection, consistency check, context construction. -/
def resolveWithUser (env : HealEnv) (db : DB) (user : UserRec) (header : Option String) :
    Except AuthErr (UserCtx × DB) :=
  let st := resolvedState env db user
  let current := selectCurrent header user.primaryOrganizationId st.1
  if mismatch current st.1 then Except.error forbiddenErr
  else Except.ok (mkUserCtx user st.1 st.2.1 current, st.2.2)

/-- Full resolution from a verified token: user lookup by id, active
check, then resolution. -/
def resolveAccess (env : HealEnv) (db : DB) (uid : String) (header : Option String) :
    Except AuthErr (UserCtx × DB) :=
  match db.users.find? (fun u => u.id == uid) with
  | none => Except.error ⟨401, "unauthorized", "User not found"⟩
  | some user =>
    if !user.active then Except.error ⟨401, "unauthorized", "User account is inactive"⟩
    else resolveWithUser env db user header

/-! ## Public-route bypass and the full preHandler hook -/

/-- The publicRoutes allow-list of the middleware, parameterized by the
configured api base path. -/
def publicRoutes (basePath : String) : List String :=
  ["/health", "/metrics", "/test", "/debug",
   basePath ++ "/auth/login", basePath ++ "/auth/register",
   "/docs", "/docs/static", "/docs/json", "/docs/yaml",
   "/docs/uiConfig", "/docs/initOAuth"]

/-- The allow-list test: some route is a prefix of the url or equal to it. -/
def isPublicRoute (basePath url : String) : Bool :=
  (publicRoutes basePath).any (fun r => jsStartsWith url r || url == r)

/-- The preHandler hook of authMiddleware: bypass checks, authorization
header handling, token extraction and verification (the verifier is a
parameter), then access resolution. -/
def authPreHandler (basePath : String) (verify : String → Except String TokenClaims)
    (env : HealEnv) (db : DB) (req : ReqInfo) : MwResult :=
  if jsIncludes req.url "/docs/" || jsIncludes req.url "/static/" ||
      jsStartsWith req.url "/debug" then
    MwResult.skipped
  else if isPublicRoute basePath req.url then
    MwResult.skipped
  else if !(truthy req.authorization) then
    MwResult.rejected ⟨401, "unauthorized", "Missing authorization header"⟩
  else
    let token := String.mk (replaceFirstBearer (req.authorization.getD "").toList)
    if token == "" then
      MwResult.rejected ⟨401, "unauthorized", "Invalid authorization format"⟩
    else
      match verify token with
      | Except.error m => MwResult.rejected ⟨401, "unauthorized", m⟩
      | Except.ok claims =>
        match resolveAccess env db claims.userId req.orgHeader with
        | Except.error e => MwResult.rejected e
        | Except.ok (ctx, db2) => MwResult.authed ctx db2

/-! ## Token claims (auth routes login and refresh) -/

/-- The claims object the login route passes to jwt.sign. -/
def loginTokenClaims (u : UserRec) : TokenClaims :=
  ⟨u.id, u.email, u.role⟩

/-- The claims object the refresh route passes to jwt.sign, built from the
request user context. -/
def refreshTokenClaims (ctx : UserCtx) : TokenClaims :=
  ⟨ctx.id, ctx.email, ctx.role⟩

/-! ## Patient search scoping (routes/patients.ts) -/

/-- The where clause of the patient search: patients with some active link
to one of the caller's organizations. -/
def patientSearch (db : DB) (orgIds : List String) : List Patient :=
  db.patients.filter (fun p =>
    p.orgLinks.any (fun l => orgIds.contains l.organizationId && l.status == "active"))

/-- The GET Patient handler outcome on its non-exception path: a 200 reply
carrying the bundle of matching patients. -/
def patientSearchHandler (db : DB) (ctx : UserCtx) : Nat × List Patient :=
  (200, patientSearch db ctx.organizationIds)

/-! ## Helper lemmas -/

lemma truthy_eq_true_iff (o : Option String) :
    truthy o = true ↔ ∃ s, o = some s ∧ s ≠ "" := by
  cases o with
  | none => simp [truthy]
  | some s => simp [truthy, bne_iff_ne]

lemma jsOr_of_truthy (a b : Option String) (h : truthy a = true) : jsOr a b = a := by
  simp [jsOr, h]

lemma jsOr_of_not_truthy (a b : Option String) (h : truthy a = false) : jsOr a b = b := by
  simp [jsOr, h]

/-- If the consistency check passes and the organization id list is
non-empty, the selected current organization is a member of the list. -/
lemma selectCurrent_mem_of_mismatch_false (header primary : Option String)
    (l : List String)
    (hmm : mismatch (selectCurrent header primary l) l = false)
    (hne : l ≠ []) :
    ∃ c, selectCurrent header primary l = some c ∧ c ∈ l := by
  by_cases th : truthy header = true
  · obtain ⟨s, hs, hsne⟩ := (truthy_eq_true_iff header).mp th
    have hsel : selectCurrent header primary l = some s := by
      rw [selectCurrent, jsOr_of_truthy _ _ th, hs]
    refine ⟨s, hsel, ?_⟩
    rw [hsel] at hmm
    simp only [mismatch, Bool.and_eq_false_iff, bne_eq_false_iff_eq,
      Bool.not_eq_false] at hmm
    rcases hmm with h | h
    · exact absurd h hsne
    · exact List.elem_iff.mp (by simpa using h)
  · have th' : truthy header = false := by
      cases hh : truthy header
      · rfl
      · exact absurd hh th
    by_cases tp : truthy primary = true
    · obtain ⟨s, hs, hsne⟩ := (truthy_eq_true_iff primary).mp tp
      have hsel : selectCurrent header primary l = some s := by
        rw [selectCurrent, jsOr_of_not_truthy _ _ th', jsOr_of_truthy _ _ tp, hs]
      refine ⟨s, hsel, ?_⟩
      rw [hsel] at hmm
      simp only [mismatch, Bool.and_eq_false_iff, bne_eq_false_iff_eq,
        Bool.not_eq_false] at hmm
      rcases hmm with h | h
      · exact absurd h hsne
      · exact List.elem_iff.mp (by simpa using h)
    · have tp' : truthy primary = false := by
        cases hh : truthy primary
        · rfl
        · exact absurd hh tp
      cases l with
      | nil => exact absurd rfl hne
      | cons x xs =>
        refine ⟨x, ?_, List.mem_cons_self x xs⟩
        rw [selectCurrent, jsOr_of_not_truthy _ _ th', jsOr_of_not_truthy _ _ tp']
        rfl

/-- Inversion of a successful resolution: the context and store it returns
are the ones built from the resolved state, and the consistency check
passed. -/
lemma resolveWithUser_ok_inv {env : HealEnv} {db : DB} {user : UserRec}
    {header : Option String} {ctx : UserCtx} {db' : DB}
    (h : resolveWithUser env db user header = Except.ok (ctx, db')) :
    ctx = mkUserCtx user (resolvedState env db user).1 (resolvedState env db user).2.1
        (selectCurrent header user.primaryOrganizationId (resolvedState env db user).1) ∧
    db' = (resolvedState env db user).2.2 ∧
    mismatch (selectCurrent header user.primaryOrganizationId (resolvedState env db user).1)
        (resolvedState env db user).1 = false := by
  rw [resolveWithUser] at h
  split at h
  · exact absurd h (by simp)
  · rename_i hcond
    simp only [Except.ok.injEq, Prod.mk.injEq] at h
    exact ⟨h.1.symm, h.2.symm, by simpa using hcond⟩

/-- A failed consistency check is the only way a resolution of a found,
active user errors, and it yields exactly the 403 reply. -/
lemma resolveWithUser_error_inv {env : HealEnv} {db : DB} {user : UserRec}
    {header : Option String} {e : AuthErr}
    (h : resolveWithUser env db user header = Except.error e) :
    e = forbiddenErr := by
  rw [resolveWithUser] at h
  split at h
  · simpa using h.symm
  · exact absurd h (by simp)

/-- Constructor form of a successful resolution. -/
lemma resolveWithUser_eq_ok (env : HealEnv) (db : DB) (user : UserRec)
    (header : Option String)
    (hmm : mismatch (selectCurrent header user.primaryOrganizationId
        (resolvedState env db user).1) (resolvedState env db user).1 = false) :
    resolveWithUser env db user header =
      Except.ok (mkUserCtx user (resolvedState env db user).1
        (resolvedState env db user).2.1
        (selectCurrent header user.primaryOrganizationId (resolvedState env db user).1),
        (resolvedState env db user).2.2) := by
  rw [resolveWithUser]
  simp [hmm]

/-! ## Concrete stores used by witnesses -/

/-- Active organization used in witness stores. -/
def wOrgA : Organization := ⟨"O1", "Org One", true⟩

/-- Second active organization used in witness stores. -/
def wOrgB : Organization := ⟨"O2", "Org Two", true⟩

/-- Staff user with one active membership. -/
def wUser1 : UserRec := ⟨"u1", "u1@x.com", "staff", true, none⟩

/-- The membership row of wUser1. -/
def wAcc1 : OrgAccess := ⟨"u1", "O1", "staff", "active"⟩

/-- Store with one staff user holding one active membership. -/
def wDB1 : DB := ⟨[wUser1], [wOrgA], [wAcc1], []⟩

/-- The context resolution builds for wUser1 over wDB1. -/
def wCtx1 : UserCtx := ⟨"u1", "u1@x.com", "staff", ["O1"], none, some "O1", [wAcc1]⟩

/-! ## Claims -/

/-- Claim C1: for every identity whose resolution succeeds (no 401 or 403
reply) and whose organization id set is non-empty, the current
organization id of the constructed context is an element of the
organization ids; equivalently, the resolver rejects any other outcome. -/
theorem claimC1 (env : HealEnv) (db : DB) (uid : String) (header : Option String)
    (ctx : UserCtx) (db' : DB)
    (hok : resolveAccess env db uid header = Except.ok (ctx, db'))
    (hne : ctx.organizationIds ≠ []) :
    ∃ c, ctx.currentOrganizationId = some c ∧ c ∈ ctx.organizationIds := by
  rw [resolveAccess] at hok
  split at hok
  · exact absurd hok (by simp)
  · rename_i user huser
    split at hok
    · exact absurd hok (by simp)
    · obtain ⟨hctx, -, hmm⟩ := resolveWithUser_ok_inv hok
      subst hctx
      have hm := selectCurrent_mem_of_mismatch_false header user.primaryOrganizationId
        (resolvedState env db user).1 hmm (by simpa [mkUserCtx] using hne)
      simpa [mkUserCtx] using hm

/-- Witness for claim C1 at a concrete store. -/
theorem claimC1_witness :
    ∃ c, wCtx1.currentOrganizationId = some c ∧ c ∈ wCtx1.organizationIds :=
  claimC1 noFailEnv wDB1 "u1" none wCtx1 wDB1 rfl (by decide)

/-- Claim C3: a request whose x-organization-id header names an
organization absent from the caller's resolved organization ids fails
with the 403 Forbidden reply; the header is never silently replaced by the
primary or any member organization. -/
theorem claimC3 (env : HealEnv) (db : DB) (user : UserRec) (h : String)
    (hne : h ≠ "")
    (hnotin : (resolvedState env db user).1.contains h = false) :
    resolveWithUser env db user (some h) = Except.error forbiddenErr ∧
    forbiddenErr.status = 403 := by
  refine ⟨?_, rfl⟩
  have hth : truthy (some h) = true := by simp [truthy, bne_iff_ne, hne]
  have hsel : selectCurrent (some h) user.primaryOrganizationId
      (resolvedState env db user).1 = some h := by
    rw [selectCurrent, jsOr_of_truthy _ _ hth]
  have hmm : mismatch (selectCurrent (some h) user.primaryOrganizationId
      (resolvedState env db user).1) (resolvedState env db user).1 = true := by
    rw [hsel]
    have hmem : h ∉ (resolvedState env db user).1 := by
      intro hm
      have hc : (resolvedState env db user).1.contains h = true := List.elem_iff.mpr hm
      rw [hnotin] at hc
      exact Bool.false_ne_true hc
    simp [mismatch, hnotin, bne_iff_ne, hne, hmem]
  rw [resolveWithUser]
  simp [hmm]

/-- Witness for claim C3: a member of only O1 asking for OX is refused. -/
theorem claimC3_witness :
    resolveWithUser noFailEnv wDB1 wUser1 (some "OX") = Except.error forbiddenErr ∧
    forbiddenErr.status = 403 :=
  claimC3 noFailEnv wDB1 wUser1 "OX" (by decide) (by decide)

/-- Claim C5: the current organization of a successful resolution is
chosen by trying the request header, then the identity's primary
organization id, then the first element of the organization ids, each in
turn, a later candidate used only when every earlier one is absent. -/
theorem claimC5 (env : HealEnv) (db : DB) (user : UserRec) (header : Option String)
    (ctx : UserCtx) (db' : DB)
    (hok : resolveWithUser env db user header = Except.ok (ctx, db')) :
    ctx.currentOrganizationId =
      selectCurrent header user.primaryOrganizationId ctx.organizationIds ∧
    (truthy header = true → ctx.currentOrganizationId = header) ∧
    (truthy header = false → truthy user.primaryOrganizationId = true →
      ctx.currentOrganizationId = user.primaryOrganizationId) ∧
    (truthy header = false → truthy user.primaryOrganizationId = false →
      ctx.currentOrganizationId = ctx.organizationIds.head?) := by
  obtain ⟨hctx, -, -⟩ := resolveWithUser_ok_inv hok
  subst hctx
  refine ⟨by simp [mkUserCtx], ?_, ?_, ?_⟩
  · intro th
    simp [mkUserCtx, selectCurrent, jsOr_of_truthy _ _ th]
  · intro th tp
    simp [mkUserCtx, selectCurrent, jsOr_of_not_truthy _ _ th, jsOr_of_truthy _ _ tp]
  · intro th tp
    simp [mkUserCtx, selectCurrent, jsOr_of_not_truthy _ _ th, jsOr_of_not_truthy _ _ tp]

/-- Witness for claim C5: a present header wins the selection. -/
theorem claimC5_witness : wCtx1.currentOrganizationId = some "O1" :=
  (claimC5 noFailEnv wDB1 wUser1 (some "O1") wCtx1 wDB1 rfl).2.1 rfl

/-! ## Self-heal lemmas -/

lemma head?_mem {α : Type} {l : List α} {a : α} (h : l.head? = some a) : a ∈ l := by
  cases l with
  | nil => cases h
  | cons x t =>
    injection h with h1
    rw [← h1]
    exact List.mem_cons_self x t

/-- With an empty active-membership load and the super-admin role, the
resolved state is the self-heal outcome. -/
lemma resolvedState_of_empty (env : HealEnv) (db : DB) (user : UserRec)
    (hrole : user.role = "super_admin")
    (hacc : activeAccessRows db user.id = []) :
    resolvedState env db user = selfHeal env db user [] := by
  simp [resolvedState, hacc, hrole]

/-- When the enumeration and the update do not fail, the self-heal
recomputes the organization ids as the ids of all active organizations. -/
lemma selfHeal_fst (env : HealEnv) (db : DB) (user : UserRec) (act : List OrgAccess)
    (henum : env.enumFails = false) (hupd : env.updateFails = false) :
    (selfHeal env db user act).1 = (activeOrgs db).map (fun o => o.id) := by
  rw [selfHeal]
  simp only [henum, Bool.false_eq_true, if_false]
  split
  · simp [hupd]
  · rfl

/-- Every user row carrying the updated id in the store returned by
setPrimary has the new primary organization id. -/
lemma setPrimary_users_primary (db : DB) (uid oid : String) :
    ∀ u ∈ (setPrimary db uid oid).users, u.id = uid →
      u.primaryOrganizationId = some oid := by
  intro u hu hid
  simp only [setPrimary, List.mem_map] at hu
  obtain ⟨v, hv, hveq⟩ := hu
  by_cases hb : (v.id == uid) = true
  · rw [← hveq, if_pos hb]
  · rw [if_neg hb] at hveq
    subst hveq
    exact absurd (beq_iff_eq.mpr hid) hb

/-- When nothing fails and the primary organization is unset while active
organizations exist, self-heal leaves every store row of the user with the
first enumerated organization as primary. -/
lemma selfHeal_primary_set (env : HealEnv) (db : DB) (user : UserRec)
    (act : List OrgAccess)
    (henum : env.enumFails = false) (hupd : env.updateFails = false)
    (hprim : truthy user.primaryOrganizationId = false)
    (o : Organization) (ho : (activeOrgs db).head? = some o) :
    ∀ u ∈ (selfHeal env db user act).2.2.users, u.id = user.id →
      u.primaryOrganizationId = some o.id := by
  have horgs : (activeOrgs db).isEmpty = false := by
    cases hl : activeOrgs db with
    | nil => rw [hl] at ho; cases ho
    | cons a t => rfl
  rw [selfHeal]
  simp only [henum, Bool.false_eq_true, if_false, hprim, horgs, Bool.not_false,
    Bool.and_self, if_true, hupd, ho]
  exact setPrimary_users_primary _ _ _

/-- Claim C2: for a super-admin whose active-membership set is empty, one
resolution pass makes the organization ids exactly the ids of all active
organizations, and, when the primary organization id was unset, the store
afterwards records the first enumerated organization as the user's
primary organization. -/
theorem claimC2 (db : DB) (user : UserRec)
    (hrole : user.role = "super_admin")
    (hacc : activeAccessRows db user.id = []) :
    (resolvedState noFailEnv db user).1 = (activeOrgs db).map (fun o => o.id) ∧
    (truthy user.primaryOrganizationId = false →
      ∀ o, (activeOrgs db).head? = some o →
        ∀ u ∈ (resolvedState noFailEnv db user).2.2.users, u.id = user.id →
          u.primaryOrganizationId = some o.id) := by
  rw [resolvedState_of_empty noFailEnv db user hrole hacc]
  constructor
  · exact selfHeal_fst noFailEnv db user [] rfl rfl
  · intro hprim o ho
    exact selfHeal_primary_set noFailEnv db user [] rfl rfl hprim o ho

/-- Super-admin with no memberships used by the C2 and C10 witnesses. -/
def wSuper2 : UserRec := ⟨"sa2", "sa2@x.com", "super_admin", true, none⟩

/-- Store holding wSuper2 and two active organizations. -/
def wDB2 : DB := ⟨[wSuper2], [wOrgA, wOrgB], [], []⟩

/-- The store row of wSuper2 after self-heal set its primary organization. -/
def wSuper2h : UserRec := ⟨"sa2", "sa2@x.com", "super_admin", true, some "O1"⟩

/-- Witness for claim C2 at a concrete store with two active
organizations. -/
theorem claimC2_witness :
    (resolvedState noFailEnv wDB2 wSuper2).1 = ["O1", "O2"] ∧
    wSuper2h.primaryOrganizationId = some "O1" :=
  ⟨(claimC2 wDB2 wSuper2 rfl rfl).1.trans rfl,
   (claimC2 wDB2 wSuper2 rfl rfl).2 rfl wOrgA rfl wSuper2h (by decide) rfl⟩

/-- Claim C10: when self-heal runs for a super-admin whose primary
organization id was unset, the context of the same request still carries
no primary organization id (the store update is not reflected into the
in-memory user row), while its current organization id resolves to the
first enumerated organization through the organization ids fallback, and
the store returned for subsequent requests carries the new primary. -/
theorem claimC10 (db : DB) (user : UserRec)
    (hrole : user.role = "super_admin")
    (hacc : activeAccessRows db user.id = [])
    (hprim : truthy user.primaryOrganizationId = false)
    (o : Organization) (ho : (activeOrgs db).head? = some o) :
    ∃ ctx db', resolveWithUser noFailEnv db user none = Except.ok (ctx, db') ∧
      ctx.primaryOrganizationId = none ∧
      ctx.currentOrganizationId = some o.id ∧
      ∀ u ∈ db'.users, u.id = user.id → u.primaryOrganizationId = some o.id := by
  have hres : resolvedState noFailEnv db user = selfHeal noFailEnv db user [] :=
    resolvedState_of_empty noFailEnv db user hrole hacc
  have hfst : (resolvedState noFailEnv db user).1 = (activeOrgs db).map (fun x => x.id) := by
    rw [hres]
    exact selfHeal_fst noFailEnv db user [] rfl rfl
  have hcur : selectCurrent none user.primaryOrganizationId
      (resolvedState noFailEnv db user).1 = some o.id := by
    have hn : truthy (none : Option String) = false := rfl
    rw [selectCurrent, jsOr_of_not_truthy _ _ hn, jsOr_of_not_truthy _ _ hprim,
      hfst, List.head?_map, ho]
    rfl
  have hmem : o.id ∈ (resolvedState noFailEnv db user).1 := by
    rw [hfst]
    exact List.mem_map.mpr ⟨o, head?_mem ho, rfl⟩
  have hmm : mismatch (selectCurrent none user.primaryOrganizationId
      (resolvedState noFailEnv db user).1) (resolvedState noFailEnv db user).1 = false := by
    rw [hcur]
    simp only [mismatch, Bool.and_eq_false_iff]
    right
    have hc : (resolvedState noFailEnv db user).1.contains o.id = true :=
      List.elem_iff.mpr hmem
    rw [hc]
    rfl
  refine ⟨_, _, resolveWithUser_eq_ok noFailEnv db user none hmm, ?_, ?_, ?_⟩
  · simp [mkUserCtx, hprim]
  · simp [mkUserCtx, hcur]
  · intro u hu hid
    rw [hres] at hu
    exact selfHeal_primary_set noFailEnv db user [] rfl rfl hprim o ho u hu hid

/-- Witness for claim C10 at the two-organization store. -/
theorem claimC10_witness :
    ∃ ctx db', resolveWithUser noFailEnv wDB2 wSuper2 none = Except.ok (ctx, db') ∧
      ctx.primaryOrganizationId = none ∧
      ctx.currentOrganizationId = some wOrgA.id ∧
      ∀ u ∈ db'.users, u.id = wSuper2.id → u.primaryOrganizationId = some wOrgA.id :=
  claimC10 wDB2 wSuper2 rfl rfl rfl wOrgA rfl

/-! ## Claim C4 (corrected) -/

lemma patientSearch_nil (db : DB) : patientSearch db [] = [] := by
  simp [patientSearch, List.filter_eq_nil_iff]

/-- Claim C4 counterexample data: staff user with no memberships. -/
def cStaff : UserRec := ⟨"st1", "st@x.com", "staff", true, none⟩

/-- Store with the membershipless staff user and one patient in O1. -/
def cDB4 : DB := ⟨[cStaff], [wOrgA], [], [⟨"p1", [⟨"O1", "active"⟩]⟩]⟩

/-- The empty-scope context the resolver builds for cStaff. -/
def cCtx4 : UserCtx := ⟨"st1", "st@x.com", "staff", [], none, none, []⟩

/-- Claim C4 fails as stated: a staff user with zero active memberships,
no organization header and no primary organization resolves successfully
(no Forbidden), and the organization-scoped patient search replies 200
with an empty bundle rather than failing. -/
theorem claimC4_counterexample :
    cStaff.role ≠ "super_admin" ∧
    activeAccessRows cDB4 cStaff.id = [] ∧
    resolveWithUser noFailEnv cDB4 cStaff none = Except.ok (cCtx4, cDB4) ∧
    cCtx4.organizationIds = [] ∧
    patientSearchHandler cDB4 cCtx4 = (200, []) ∧
    cDB4.patients ≠ [] :=
  ⟨by decide, rfl, rfl, rfl, rfl, by decide⟩

/-- Claim C4 amended: a non-super-admin with zero active memberships
always resolves to an empty organization id set; the request is rejected
with Forbidden exactly when a current-organization candidate is present
(header or primary organization id), and otherwise resolution succeeds
with empty scope and the scoped patient search returns a 200 empty
result. -/
theorem claimC4_amended (env : HealEnv) (db : DB) (user : UserRec) (header : Option String)
    (hrole : (user.role == "super_admin") = false)
    (hacc : activeAccessRows db user.id = []) :
    (∀ ctx db', resolveWithUser env db user header = Except.ok (ctx, db') →
      ctx.organizationIds = [] ∧ patientSearchHandler db' ctx = (200, [])) ∧
    ((truthy header = true ∨ truthy user.primaryOrganizationId = true) →
      resolveWithUser env db user header = Except.error forbiddenErr) ∧
    ((truthy header = false ∧ truthy user.primaryOrganizationId = false) →
      ∃ ctx db', resolveWithUser env db user header = Except.ok (ctx, db')) := by
  have hst : resolvedState env db user = ([], [], db) := by
    simp [resolvedState, hacc, hrole]
  have h1 : (resolvedState env db user).1 = [] := by rw [hst]
  refine ⟨?_, ?_, ?_⟩
  · intro ctx db' hok
    obtain ⟨hctx, hdb, -⟩ := resolveWithUser_ok_inv hok
    subst hctx
    subst hdb
    exact ⟨by simp [mkUserCtx, h1],
      by simp [patientSearchHandler, mkUserCtx, h1, patientSearch_nil]⟩
  swap
  · intro hnone
    have hcur : selectCurrent header user.primaryOrganizationId
        (resolvedState env db user).1 = none := by
      rw [h1, selectCurrent, jsOr_of_not_truthy _ _ hnone.1,
        jsOr_of_not_truthy _ _ hnone.2]
      rfl
    have hmm : mismatch (selectCurrent header user.primaryOrganizationId
        (resolvedState env db user).1) (resolvedState env db user).1 = false := by
      rw [hcur]
      rfl
    exact ⟨_, _, resolveWithUser_eq_ok env db user header hmm⟩
  · intro hdisj
    have hmm : mismatch (selectCurrent header user.primaryOrganizationId
        (resolvedState env db user).1) (resolvedState env db user).1 = true := by
      rw [h1]
      by_cases th : truthy header = true
      · obtain ⟨s, hs, hsne⟩ := (truthy_eq_true_iff header).mp th
        rw [selectCurrent, jsOr_of_truthy _ _ th, hs]
        simp [mismatch, bne_iff_ne, hsne]
      · have th' : truthy header = false := by
          cases hh : truthy header
          · rfl
          · exact absurd hh th
        have tp : truthy user.primaryOrganizationId = true := by
          rcases hdisj with hvh | hvp
          · exact absurd hvh th
          · exact hvp
        obtain ⟨s, hs, hsne⟩ := (truthy_eq_true_iff user.primaryOrganizationId).mp tp
        rw [selectCurrent, jsOr_of_not_truthy _ _ th', jsOr_of_truthy _ _ tp, hs]
        simp [mismatch, bne_iff_ne, hsne]
    rw [resolveWithUser]
    simp [hmm]

/-- Witness for the amended claim C4 at the concrete store, in both the
empty-candidate and the present-candidate cases. -/
theorem claimC4_amended_witness :
    (cCtx4.organizationIds = [] ∧ patientSearchHandler cDB4 cCtx4 = (200, [])) ∧
    resolveWithUser noFailEnv cDB4 cStaff (some "O1") = Except.error forbiddenErr ∧
    (∃ ctx db', resolveWithUser noFailEnv cDB4 cStaff none = Except.ok (ctx, db')) :=
  ⟨(claimC4_amended noFailEnv cDB4 cStaff none rfl rfl).1 cCtx4 cDB4 rfl,
   (claimC4_amended noFailEnv cDB4 cStaff (some "O1") rfl rfl).2.1 (Or.inl rfl),
   (claimC4_amended noFailEnv cDB4 cStaff none rfl rfl).2.2 ⟨rfl, rfl⟩⟩

/-! ## Claim C6 (corrected) -/

/-- Environment in which the self-heal organization enumeration throws. -/
def enumFailEnv : HealEnv := ⟨true, [], false⟩

/-- Super-admin with a primary organization but no membership rows. -/
def cSuper6 : UserRec := ⟨"sa6", "sa6@x.com", "super_admin", true, some "O1"⟩

/-- Store holding cSuper6 and one active organization. -/
def cDB6 : DB := ⟨[cSuper6], [wOrgA], [], []⟩

/-- Context of the successful no-failure run for cSuper6. -/
def cCtx6 : UserCtx :=
  ⟨"sa6", "sa6@x.com", "super_admin", ["O1"], some "O1", some "O1",
   [⟨"sa6", "O1", "admin", "active"⟩]⟩

/-- Store after the no-failure self-heal run for cSuper6. -/
def cDB6h : DB := ⟨[cSuper6], [wOrgA], [⟨"sa6", "O1", "admin", "active"⟩], []⟩

/-- Claim C6 fails as stated: a swallowed enumeration failure leaves the
organization ids empty, and the very same request that succeeds without
the failure is then rejected 403 by the consistency check, so a self-heal
failure can cause the request to be rejected. -/
theorem claimC6_counterexample :
    resolveWithUser enumFailEnv cDB6 cSuper6 none = Except.error forbiddenErr ∧
    forbiddenErr.status = 403 ∧
    resolveWithUser noFailEnv cDB6 cSuper6 none = Except.ok (cCtx6, cDB6h) :=
  ⟨rfl, rfl, rfl⟩

/-- Claim C6 amended: self-heal failures are absorbed and never surface
as Conflict 409 or Internal 500 — every resolver rejection carries status
401 or 403 — and per-organization insert failures never alter the
computed organization id set; an enumeration or update failure, however,
leaves the set empty and the consistency check may then reject with
Forbidden. -/
theorem claimC6_amended :
    (∀ env db uid header e, resolveAccess env db uid header = Except.error e →
      e.status = 401 ∨ e.status = 403) ∧
    (∀ fails db user,
      (resolvedState ⟨false, fails, false⟩ db user).1 =
        (resolvedState noFailEnv db user).1) := by
  constructor
  · intro env db uid header e he
    rw [resolveAccess] at he
    split at he
    · simp only [Except.error.injEq] at he
      left
      rw [← he]
    · split at he
      · simp only [Except.error.injEq] at he
        left
        rw [← he]
      · right
        rw [resolveWithUser_error_inv he]
        rfl
  · intro fails db user
    rw [resolvedState, resolvedState]
    split
    · rw [selfHeal_fst ⟨false, fails, false⟩ db user _ rfl rfl,
        selfHeal_fst noFailEnv db user _ rfl rfl]
    · rfl

/-- Witness for the amended claim C6: a 401 rejection is classified, and
an insert-failure environment computes the same organization ids as the
failure-free one. -/
theorem claimC6_amended_witness :
    ((⟨401, "unauthorized", "User not found"⟩ : AuthErr).status = 401 ∨
      (⟨401, "unauthorized", "User not found"⟩ : AuthErr).status = 403) ∧
    (resolvedState ⟨false, ["O1"], false⟩ wDB2 wSuper2).1 =
      (resolvedState noFailEnv wDB2 wSuper2).1 :=
  ⟨claimC6_amended.1 noFailEnv wDB2 "ghost" none _ rfl,
   claimC6_amended.2 ["O1"] wDB2 wSuper2⟩

/-! ## Claim C7 -/

/-- Claim C7: the claims signed at login and refresh are exactly the
userId, email and role triple, and depend on nothing else — two users or
contexts agreeing on that triple sign identical claims whatever their
organization memberships. -/
theorem claimC7 :
    (∀ u : UserRec, loginTokenClaims u = ⟨u.id, u.email, u.role⟩) ∧
    (∀ ctx : UserCtx, refreshTokenClaims ctx = ⟨ctx.id, ctx.email, ctx.role⟩) ∧
    (∀ u v : UserRec, u.id = v.id → u.email = v.email → u.role = v.role →
      loginTokenClaims u = loginTokenClaims v) ∧
    (∀ c d : UserCtx, c.id = d.id → c.email = d.email → c.role = d.role →
      refreshTokenClaims c = refreshTokenClaims d) := by
  refine ⟨fun _ => rfl, fun _ => rfl, ?_, ?_⟩
  · intro u v h1 h2 h3
    simp [loginTokenClaims, h1, h2, h3]
  · intro c d h1 h2 h3
    simp [refreshTokenClaims, h1, h2, h3]

/-- User rows agreeing on the claim triple but not on activity or primary
organization. -/
def wU7a : UserRec := ⟨"u7", "u7@x.com", "staff", true, some "O1"⟩

/-- Second such user row. -/
def wU7b : UserRec := ⟨"u7", "u7@x.com", "staff", false, none⟩

/-- Context with memberships. -/
def wC7a : UserCtx :=
  ⟨"u7", "u7@x.com", "staff", ["O1", "O2"], some "O1", some "O2",
   [⟨"u7", "O1", "staff", "active"⟩]⟩

/-- Context without memberships. -/
def wC7b : UserCtx := ⟨"u7", "u7@x.com", "staff", [], none, none, []⟩

/-- Witness for claim C7: changing every membership-related field leaves
the signed claims unchanged. -/
theorem claimC7_witness :
    loginTokenClaims wU7a = loginTokenClaims wU7b ∧
    refreshTokenClaims wC7a = refreshTokenClaims wC7b :=
  ⟨claimC7.2.2.1 wU7a wU7b rfl rfl rfl, claimC7.2.2.2 wC7a wC7b rfl rfl rfl⟩

/-! ## Claim C8: race-free uniqueness of self-heal inserts -/

lemma any_pair_iff_rowCount_pos (tbl : List OrgAccess) (x y : String) :
    tbl.any (fun a => a.userId == x && a.organizationId == y) = true ↔
      0 < rowCount tbl x y := by
  rw [List.any_eq_true, rowCount, List.length_pos]
  constructor
  · rintro ⟨a, ha, hp⟩ hnil
    exact List.filter_eq_nil_iff.mp hnil a ha hp
  · intro hne
    obtain ⟨a, ha⟩ := List.exists_mem_of_ne_nil _ hne
    have hm := List.mem_filter.mp ha
    exact ⟨a, hm.1, hm.2⟩

lemma insertGuarded_eq_of_dup (tbl : List OrgAccess) (r : OrgAccess)
    (h : 0 < rowCount tbl r.userId r.organizationId) :
    insertGuarded tbl r = tbl := by
  rw [insertGuarded, if_pos ((any_pair_iff_rowCount_pos tbl _ _).mpr h)]

lemma insertGuarded_eq_of_new (tbl : List OrgAccess) (r : OrgAccess)
    (h : rowCount tbl r.userId r.organizationId = 0) :
    insertGuarded tbl r = tbl ++ [r] := by
  have hna : ¬ (tbl.any (fun a => a.userId == r.userId &&
      a.organizationId == r.organizationId) = true) := by
    intro hany
    have hp := (any_pair_iff_rowCount_pos tbl _ _).mp hany
    rw [h] at hp
    exact Nat.lt_irrefl 0 hp
  rw [insertGuarded, if_neg hna]

lemma rowCount_append_single (tbl : List OrgAccess) (r : OrgAccess) (u o : String) :
    rowCount (tbl ++ [r]) u o =
      rowCount tbl u o + (if (r.userId == u && r.organizationId == o) = true then 1 else 0) := by
  rw [rowCount, rowCount, List.filter_append, List.length_append]
  congr 1
  by_cases hm : (r.userId == u && r.organizationId == o) = true
  · simp [List.filter, hm]
  · simp [List.filter, hm]

lemma rowCount_insertGuarded_le (tbl : List OrgAccess) (r : OrgAccess) (u o : String)
    (h : rowCount tbl u o ≤ 1) :
    rowCount (insertGuarded tbl r) u o ≤ 1 := by
  by_cases hd : 0 < rowCount tbl r.userId r.organizationId
  · rw [insertGuarded_eq_of_dup tbl r hd]
    exact h
  · have h0 : rowCount tbl r.userId r.organizationId = 0 := Nat.eq_zero_of_not_pos hd
    rw [insertGuarded_eq_of_new tbl r h0, rowCount_append_single]
    by_cases hm : (r.userId == u && r.organizationId == o) = true
    · have hb : r.userId = u ∧ r.organizationId = o := by simpa using hm
      have h1 : r.userId = u := hb.1
      have h2 : r.organizationId = o := hb.2
      rw [if_pos hm, ← h1, ← h2, h0]
    · rw [if_neg hm]
      simpa using h

lemma rowCount_le_insertGuarded (tbl : List OrgAccess) (r : OrgAccess) (u o : String) :
    rowCount tbl u o ≤ rowCount (insertGuarded tbl r) u o := by
  by_cases hd : 0 < rowCount tbl r.userId r.organizationId
  · rw [insertGuarded_eq_of_dup tbl r hd]
  · rw [insertGuarded_eq_of_new tbl r (Nat.eq_zero_of_not_pos hd), rowCount_append_single]
    exact Nat.le_add_right _ _

lemma one_le_rowCount_insertGuarded (tbl : List OrgAccess) (r : OrgAccess) (u o : String)
    (h1 : r.userId = u) (h2 : r.organizationId = o) :
    1 ≤ rowCount (insertGuarded tbl r) u o := by
  by_cases hd : 0 < rowCount tbl r.userId r.organizationId
  · rw [insertGuarded_eq_of_dup tbl r hd, ← h1, ← h2]
    exact hd
  · rw [insertGuarded_eq_of_new tbl r (Nat.eq_zero_of_not_pos hd),
      rowCount_append_single, ← h1, ← h2]
    have hm : (r.userId == r.userId && r.organizationId == r.organizationId) = true := by
      simp
    rw [if_pos hm]
    exact Nat.le_add_left 1 _

lemma rowCount_runInserts_le (attempts : List OrgAccess) (tbl : List OrgAccess)
    (u o : String) (h : rowCount tbl u o ≤ 1) :
    rowCount (runInserts tbl attempts) u o ≤ 1 := by
  induction attempts generalizing tbl with
  | nil => exact h
  | cons r rest ih =>
    rw [runInserts, List.foldl_cons]
    exact ih _ (rowCount_insertGuarded_le tbl r u o h)

lemma rowCount_le_runInserts (attempts : List OrgAccess) (tbl : List OrgAccess)
    (u o : String) :
    rowCount tbl u o ≤ rowCount (runInserts tbl attempts) u o := by
  induction attempts generalizing tbl with
  | nil => exact Nat.le_refl _
  | cons r rest ih =>
    rw [runInserts, List.foldl_cons]
    exact Nat.le_trans (rowCount_le_insertGuarded tbl r u o) (ih _)

lemma one_le_rowCount_runInserts (attempts : List OrgAccess) (tbl : List OrgAccess)
    (u o : String) (r : OrgAccess)
    (hr : r ∈ attempts) (h1 : r.userId = u) (h2 : r.organizationId = o) :
    1 ≤ rowCount (runInserts tbl attempts) u o := by
  induction attempts generalizing tbl with
  | nil => cases hr
  | cons a rest ih =>
    rw [runInserts, List.foldl_cons]
    rcases List.mem_cons.mp hr with hh | hh
    · subst hh
      exact Nat.le_trans (one_le_rowCount_insertGuarded tbl r u o h1 h2)
        (rowCount_le_runInserts rest _ u o)
    · exact ih _ hh

/-- Claim C8: under any interleaving of concurrent self-heal passes of
the same super-admin — any sequence of guarded inserts that contains each
pass's attempt rows — the membership table ends with exactly one
(userId, organizationId) row per active organization, starting from none,
and guarded insertion never creates a duplicate for any pair. -/
theorem claimC8 (db : DB) (user : UserRec) (tbl attempts : List OrgAccess)
    (hcov : ∀ r ∈ healAttempts user (activeOrgs db) [], r ∈ attempts)
    (hinit : ∀ o ∈ activeOrgs db, rowCount tbl user.id o.id = 0) :
    (∀ o ∈ activeOrgs db, rowCount (runInserts tbl attempts) user.id o.id = 1) ∧
    (∀ x y, rowCount tbl x y ≤ 1 → rowCount (runInserts tbl attempts) x y ≤ 1) := by
  constructor
  · intro o ho
    have hrow : (⟨user.id, o.id, "admin", "active"⟩ : OrgAccess) ∈
        healAttempts user (activeOrgs db) [] := by
      rw [healAttempts]
      refine List.mem_map.mpr ⟨o, ?_, rfl⟩
      simpa using ho
    have hge := one_le_rowCount_runInserts attempts tbl user.id o.id _
      (hcov _ hrow) rfl rfl
    have hle := rowCount_runInserts_le attempts tbl user.id o.id
      (by rw [hinit o ho]; exact Nat.zero_le 1)
    exact Nat.le_antisymm hle hge
  · intro x y hxy
    exact rowCount_runInserts_le attempts tbl x y hxy

/-- Heal row of wSuper2 for O1. -/
def wRowA : OrgAccess := ⟨"sa2", "O1", "admin", "active"⟩

/-- Heal row of wSuper2 for O2. -/
def wRowB : OrgAccess := ⟨"sa2", "O2", "admin", "active"⟩

/-- An interleaving of two complete self-heal passes. -/
def wAttempts : List OrgAccess := [wRowA, wRowB, wRowA, wRowB]

/-- Witness for claim C8: two racing passes leave exactly one row per
organization. -/
theorem claimC8_witness :
    rowCount (runInserts [] wAttempts) "sa2" "O1" = 1 ∧
    rowCount (runInserts [] wAttempts) "sa2" "O2" = 1 :=
  ⟨(claimC8 wDB2 wSuper2 [] wAttempts (by decide) (by decide)).1 wOrgA (by decide),
   (claimC8 wDB2 wSuper2 [] wAttempts (by decide) (by decide)).1 wOrgB (by decide)⟩

/-! ## Claim C9: authentication bypass predicate -/

/-- Claim C9: any request whose raw URL contains the substring /docs/ or
/static/ anywhere, or starts with /debug, or starts with (or equals) a
public-route prefix, is returned before token verification and access
resolution run, for every verifier, store and failure environment — the
bypass is a substring or prefix match on the raw URL, so unrelated
resource URLs containing those substrings are also exempt. -/
theorem claimC9 (basePath : String) (verify : String → Except String TokenClaims)
    (env : HealEnv) (db : DB) (req : ReqInfo)
    (h : jsIncludes req.url "/docs/" = true ∨ jsIncludes req.url "/static/" = true ∨
      jsStartsWith req.url "/debug" = true ∨ isPublicRoute basePath req.url = true) :
    authPreHandler basePath verify env db req = MwResult.skipped := by
  rw [authPreHandler]
  rcases h with h | h | h | h
  · simp [h]
  · simp [h]
  · simp [h]
  · by_cases hd : (jsIncludes req.url "/docs/" || jsIncludes req.url "/static/" ||
      jsStartsWith req.url "/debug") = true
    · simp [hd]
    · have hd' := Bool.not_eq_true _ |>.mp hd
      simp [hd', h]

/-- Verifier that rejects every token, used to show the bypass ignores it. -/
def wVerify : String → Except String TokenClaims := fun _ => Except.error "bad token"

/-- A patient-resource URL that happens to contain /static/. -/
def wReq9 : ReqInfo := ⟨"/fhir/Patient/static/logo.png", none, none⟩

/-- Witness for claim C9: a non-documentation URL containing /static/
with no authorization header is exempted from authentication. -/
theorem claimC9_witness :
    jsIncludes wReq9.url "/static/" = true ∧
    authPreHandler "/api" wVerify noFailEnv wDB1 wReq9 = MwResult.skipped :=
  ⟨rfl, claimC9 "/api" wVerify noFailEnv wDB1 wReq9 (Or.inr (Or.inl rfl))⟩

end HMIS
